import Mathlib

/-!
# Vertex AI RAG corpus provider: lifecycle reconciliation

A shallow embedding of `internal/provider/resource_rag_corpus.go` and of the
`ProviderConfig` record of `internal/provider/provider.go`.

Conventions of the embedding:

* Go strings are `String`; `fmt.Sprintf` with `%s` verbs is concatenation.
* `types.String` of the plugin framework is `TString` (null, unknown or a value).
* A value decoded by `encoding/json` into `interface{}` is a `JSON`; a
  `map[string]interface{}` is a `GoMap`, an association list with unique keys that is
  read by key and written by replace-or-append.  A nil map is the empty list: reads of
  a nil map and of an empty map agree, and `json.Unmarshal` allocates on write.
* What lies outside the repository is a parameter: the JSON decoder and the `%v`
  formatter are the fields of `Runtime`; the outcome of one HTTP exchange
  (`http.NewRequest` followed by `client.Do`) is an `Exchange` supplied by the caller.
* The framework calls `req.Plan.Get`, `req.State.Get` and `resp.State.Set` are taken to
  succeed without diagnostics; the entry points receive the decoded model.
* A Go panic is the `Run.panicked` outcome.
-/

namespace VertexAIRAG

/-! ## Data model -/

/-- ProviderConfig holds the configuration for the provider (`provider.go`). -/
structure ProviderConfig where
  Project : String
  Region : String
  AccessToken : String
  deriving DecidableEq, Repr

/-- The framework type `types.String`. -/
inductive TString where
  | null
  | unknown
  | value (s : String)
  deriving DecidableEq, Repr

/-- The method `types.String.ValueString`: the empty string unless a value is known. -/
def TString.ValueString : TString → String
  | .value s => s
  | _ => ""

/-- The framework constructor `types.StringValue`. -/
def StringValue (s : String) : TString := .value s

structure EmbeddingModelConfig where
  Model : TString
  deriving DecidableEq, Repr

/-- RagCorpusResourceModel describes the resource data model. -/
structure RagCorpusResourceModel where
  ID : TString
  Name : TString
  DisplayName : TString
  Description : TString
  EmbeddingModelConfig : Option EmbeddingModelConfig
  deriving DecidableEq, Repr

/-! ## Dynamic JSON values and Go maps -/

/-- A JSON value as `encoding/json` decodes it into `interface{}`.  A number keeps its
literal; the members of an object are in document order. -/
inductive JSON where
  | null
  | bool (b : Bool)
  | num (lit : String)
  | str (s : String)
  | arr (xs : List JSON)
  | obj (kvs : List (String × JSON))

/-- A `map[string]interface{}`. -/
abbrev GoMap := List (String × JSON)

/-- The index expression `m[k]`: `none` stands for the nil interface of a missing key. -/
def GoMap.get : GoMap → String → Option JSON
  | [], _ => none
  | (k', v) :: rest, k => if k' = k then some v else GoMap.get rest k

/-- The assignment `m[k] = v`. -/
def GoMap.set : GoMap → String → JSON → GoMap
  | [], k, v => [(k, v)]
  | (k', v') :: rest, k, v => if k' = k then (k, v) :: rest else (k', v') :: GoMap.set rest k v

/-- Decoding the members of a JSON object into an existing map: each member is assigned
in document order, existing entries with other keys are kept. -/
def GoMap.assignAll (m : GoMap) (kvs : List (String × JSON)) : GoMap :=
  kvs.foldl (fun acc kv => GoMap.set acc kv.1 kv.2) m

/-- The comparison `v == true` on an `interface{}`. -/
def isTrue : Option JSON → Bool
  | some (.bool true) => true
  | _ => false

/-- The checked assertion `v.(string)`. -/
def asString : Option JSON → Option String
  | some (.str s) => some s
  | _ => none

/-- The checked assertion `v.(map[string]interface{})`. -/
def asMap : Option JSON → Option GoMap
  | some (.obj kvs) => some (GoMap.assignAll [] kvs)
  | _ => none

/-- The dynamic type name Go prints in an interface-conversion panic. -/
def goTypeName : Option JSON → String
  | none => "nil"
  | some .null => "nil"
  | some (.bool _) => "bool"
  | some (.num _) => "float64"
  | some (.str _) => "string"
  | some (.arr _) => "[]interface {}"
  | some (.obj _) => "map[string]interface {}"

/-! ## Library functions taken as parameters -/

/-- The parts of the Go standard library the resource calls on response bodies. -/
structure Runtime where
  /-- The value `json.Unmarshal` reads from a whole body, or its syntax error. -/
  jsonUnmarshal : String → Except String JSON
  /-- The first value `json.NewDecoder(body).Decode` reads from a stream. -/
  jsonDecode : String → Except String JSON
  /-- The verb `%v` applied to a map. -/
  formatV : GoMap → String

/-- The message of the `UnmarshalTypeError` for a value that is neither an object nor
null, decoded into a `map[string]interface{}`. -/
def unmarshalTypeError (v : JSON) : String :=
  let kind := match v with
    | .bool _ => "bool"
    | .num _ => "number"
    | .str _ => "string"
    | .arr _ => "array"
    | _ => "object"
  "json: cannot unmarshal " ++ kind ++ " into Go value of type map[string]interface {}"

/-- Storing a decoded value into the map variable `result`: an object is merged into
the map, null resets it to nil, anything else is a type error that leaves it as it was.
The pair is the map afterwards and the error, if any. -/
def storeInto (parsed : Except String JSON) (result : GoMap) : GoMap × Option String :=
  match parsed with
  | .error e => (result, some e)
  | .ok .null => ([], none)
  | .ok (.obj kvs) => (GoMap.assignAll result kvs, none)
  | .ok v => (result, some (unmarshalTypeError v))

/-- The call `json.Unmarshal(body, &result)`. -/
def Unmarshal (rt : Runtime) (body : String) (result : GoMap) : GoMap × Option String :=
  storeInto (rt.jsonUnmarshal body) result

/-- The call `json.NewDecoder(body).Decode(&result)`. -/
def Decode (rt : Runtime) (body : String) (result : GoMap) : GoMap × Option String :=
  storeInto (rt.jsonDecode body) result

/-! ## HTTP exchanges -/

structure HTTPRequest where
  Method : String
  URL : String
  /-- The value assigned to `URL.RawQuery` after construction, if any. -/
  RawQuery : Option String
  Header : List (String × String)
  /-- The payload handed to `json.Marshal` for the request body, if any. -/
  Body : Option GoMap

structure HTTPResponse where
  Status : String
  StatusCode : Int
  Body : String
  deriving DecidableEq, Repr

/-- The outcome of building one request and sending it. -/
inductive Exchange where
  /-- The call `http.NewRequest` returned an error and a nil request. -/
  | requestError (err : String)
  /-- The call `client.Do` returned an error. -/
  | transportError (err : String)
  /-- The server answered. -/
  | response (r : HTTPResponse)

/-! ## Diagnostics and results -/

inductive Severity where
  | error
  | warning
  deriving DecidableEq, Repr

structure Diagnostic where
  severity : Severity
  summary : String
  detail : String
  deriving DecidableEq, Repr

/-- The diagnostic `Diagnostics.AddError(summary, detail)` appends. -/
def errorDiag (summary detail : String) : Diagnostic := ⟨.error, summary, detail⟩

/-- The method `Diagnostics.HasError`. -/
def HasError (ds : List Diagnostic) : Bool := ds.any (fun d => d.severity = .error)

/-- How a call ends: by returning, or by a Go panic. -/
inductive Run (ρ : Type) where
  | returned (resp : ρ)
  | panicked (msg : String)

/-- A lifecycle call: the requests it sent, in order, and how it ended. -/
structure Call (ρ : Type) where
  sent : List HTTPRequest
  result : Run ρ

/-- What a call did to `resp.State`. -/
inductive StateWrite where
  /-- The state was left as the framework passed it in. -/
  | untouched
  /-- The call `State.RemoveResource`. -/
  | removed
  /-- The call `State.Set(ctx, &data)`. -/
  | set (data : RagCorpusResourceModel)
  deriving DecidableEq, Repr

structure Response where
  Diagnostics : List Diagnostic
  State : StateWrite
  deriving DecidableEq, Repr

/-! ## Endpoint URLs (the five call sites) -/

/-- The URL of Create's POST (lines 118-121). -/
def createURL (cfg : ProviderConfig) : String :=
  if cfg.Region ≠ "us-central1" then
    "https://" ++ cfg.Region ++ "-aiplatform.googleapis.com/v1beta1/projects/" ++ cfg.Project
      ++ "/locations/" ++ cfg.Region ++ "/ragCorpora"
  else
    "https://us-central1-aiplatform.googleapis.com/v1beta1/projects/" ++ cfg.Project
      ++ "/locations/" ++ cfg.Region ++ "/ragCorpora"

/-- The URL of a named resource or operation, as Create's poll (lines 183-186), Read
(226-229), Update (277-280) and Delete (332-335) each build it. -/
def namedURL (cfg : ProviderConfig) (name : String) : String :=
  if cfg.Region = "us-central1" then
    "https://us-central1-aiplatform.googleapis.com/v1beta1/" ++ name
  else
    "https://" ++ cfg.Region ++ "-aiplatform.googleapis.com/v1beta1/" ++ name

/-- The poll URL of Create. -/
def pollURL (cfg : ProviderConfig) (opName : String) : String := namedURL cfg opName

/-- The URL of Read. -/
def readURL (cfg : ProviderConfig) (data : RagCorpusResourceModel) : String :=
  namedURL cfg data.Name.ValueString

/-- The URL of Update. -/
def updateURL (cfg : ProviderConfig) (data : RagCorpusResourceModel) : String :=
  namedURL cfg data.Name.ValueString

/-- The URL of Delete. -/
def deleteURL (cfg : ProviderConfig) (data : RagCorpusResourceModel) : String :=
  namedURL cfg data.Name.ValueString

/-- The service host every URL of the provider ends its authority with. -/
def serviceHost : String := "aiplatform.googleapis.com"

/-- A character that ends the authority of a URL. -/
def endsAuthority (c : Char) : Bool := c = '/' || c = '?' || c = '#'

/-- The characters of a plain host name: ASCII letters and digits, `-`, `.`, `_`
and `~`. -/
def hostAlphabet : List Char :=
  "abcdefghijklmnopqrstuvwxyzABCDEFGHIJKLMNOPQRSTUVWXYZ0123456789-._~".data

/-- A character `url.Parse` takes as it stands: neither an ASCII control character
(which it rejects) nor `%` (the start of an escape, which it validates and decodes). -/
def urlChar (c : Char) : Bool := !(c.toNat < 0x20 || c.toNat = 0x7f || c = '%')

/-- The authority of an `https` URL: what follows the scheme up to the first `/`, `?`
or `#`. -/
def urlAuthority (url : String) : List Char :=
  (url.data.drop "https://".length).takeWhile (fun c => !endsAuthority c)

/-- The field `URL.Host` of the URL `http.NewRequest` parses, on the URLs for which it
is plain to read off: an `https` URL made of `urlChar` characters whose authority is
made of `hostAlphabet` characters has that authority as its host.  Every other URL
gives `none`: among them are all the URLs `url.Parse` rejects, for which no request is
built (a control character, a malformed escape, an invalid port as in `eu:8080-...`, an
invalid host character as in `eu west-...`), and those whose host needs user
information, a port, a bracketed address or an escape to be taken apart. -/
def urlHost (url : String) : Option String :=
  if "https://".data.isPrefixOf url.data ∧ url.data.all urlChar then
    if (urlAuthority url).all (fun c => c ∈ hostAlphabet) then some ⟨urlAuthority url⟩ else none
  else none

/-- A region made of host-name characters only. -/
def hostSafe (r : String) : Prop := ∀ c ∈ r.data, c ∈ hostAlphabet

/-- A project or resource path made of characters a URL takes as they stand. -/
def pathSafe (p : String) : Prop := ∀ c ∈ p.data, urlChar c = true

/-! ## Create -/

/-- The payload of Create's POST (lines 123-132). -/
def createPayload (data : RagCorpusResourceModel) : GoMap :=
  let payload : GoMap :=
    [("display_name", .str data.DisplayName.ValueString),
     ("description", .str data.Description.ValueString)]
  match data.EmbeddingModelConfig with
  | some emc =>
    GoMap.set payload "embedding_model_config"
      (.obj [("publisher_model", .str ("publishers/google/models/" ++ emc.Model.ValueString))])
  | none => payload

/-- The POST request of Create (lines 140-147). -/
def createRequest (cfg : ProviderConfig) (data : RagCorpusResourceModel) : HTTPRequest :=
  { Method := "POST"
    URL := createURL cfg
    RawQuery := none
    Header := [("Authorization", "Bearer " ++ cfg.AccessToken), ("Content-Type", "application/json")]
    Body := some (createPayload data) }

/-- The GET request of one poll (lines 183-189). -/
def pollRequest (cfg : ProviderConfig) (opName : String) : HTTPRequest :=
  { Method := "GET"
    URL := pollURL cfg opName
    RawQuery := none
    Header := [("Authorization", "Bearer " ++ cfg.AccessToken)]
    Body := none }

/-- The detail of an `API Error` diagnostic. -/
def apiErrorDetail (r : HTTPResponse) : String :=
  "Status: " ++ r.Status ++ ", Body: " ++ r.Body

/-- The message of the panic raised by a method call on a nil pointer. -/
def nilDereference : String := "runtime error: invalid memory address or nil pointer dereference"

/-- How the poll loop ends: it returns from Create early, or control reaches the code
after the loop with the map `result`. -/
inductive PollExit where
  | aborted (sent : List HTTPRequest) (result : Run Response)
  | finished (sent : List HTTPRequest) (result : GoMap)

/-- The poll loop of Create (lines 177-198).  The first argument counts the iterations
left, `i` is the loop variable, `polls i` the outcome of the exchange of iteration `i`. -/
def pollLoop (rt : Runtime) (cfg : ProviderConfig) (opName : String) (polls : Nat → Exchange) :
    Nat → Nat → GoMap → List HTTPRequest → PollExit
  | 0, _, result, sent => .finished sent result
  | n + 1, i, result, sent =>
    if isTrue (result.get "done") then .finished sent result
    else
      match polls i with
      | .requestError _ => .aborted sent (.panicked nilDereference)
      | .transportError err =>
        .aborted (sent ++ [pollRequest cfg opName])
          (.returned ⟨[errorDiag "Error polling operation" err], .untouched⟩)
      | .response pollResp =>
        pollLoop rt cfg opName polls n (i + 1) (Unmarshal rt pollResp.Body result).1
          (sent ++ [pollRequest cfg opName])

/-- The code of Create after the poll loop (lines 200-216). -/
def createFinish (rt : Runtime) (data : RagCorpusResourceModel) (result : GoMap) : Response :=
  if isTrue (result.get "done") = false then
    ⟨[errorDiag "Operation timed out" "Creation operation did not complete in time"], .untouched⟩
  else
    match asMap (result.get "response") with
    | none => ⟨[errorDiag "Operation failed or unexpected result" (rt.formatV result)], .untouched⟩
    | some responseMap =>
      let name := (asString (responseMap.get "name")).getD ""
      ⟨[], .set { data with Name := StringValue name, ID := StringValue name }⟩

/-- The method `RagCorpusResource.Create` (lines 109-217).  `data` is the decoded plan,
`initial` the outcome of the POST exchange, `polls` those of the poll exchanges. -/
def Create (rt : Runtime) (cfg : ProviderConfig) (data : RagCorpusResourceModel)
    (initial : Exchange) (polls : Nat → Exchange) : Call Response :=
  let httpReq := createRequest cfg data
  match initial with
  | .requestError err => ⟨[], .returned ⟨[errorDiag "Error creating request" err], .untouched⟩⟩
  | .transportError err =>
    ⟨[httpReq], .returned ⟨[errorDiag "Error sending request" err], .untouched⟩⟩
  | .response httpResp =>
    if httpResp.StatusCode ≠ 200 then
      ⟨[httpReq], .returned ⟨[errorDiag "API Error" (apiErrorDetail httpResp)], .untouched⟩⟩
    else
      match Unmarshal rt httpResp.Body [] with
      | (_, some err) =>
        ⟨[httpReq], .returned ⟨[errorDiag "Error parsing response" err], .untouched⟩⟩
      | (result, none) =>
        match asString (result.get "name") with
        | none =>
          ⟨[httpReq],
            .returned ⟨[errorDiag "Unexpected response format" "Missing 'name' field"], .untouched⟩⟩
        | some opName =>
          match pollLoop rt cfg opName polls 10 0 result [httpReq] with
          | .aborted sent r => ⟨sent, r⟩
          | .finished sent result => ⟨sent, .returned (createFinish rt data result)⟩

/-! ## Read -/

/-- The GET request of Read (lines 226-237). -/
def readRequest (cfg : ProviderConfig) (data : RagCorpusResourceModel) : HTTPRequest :=
  { Method := "GET"
    URL := readURL cfg data
    RawQuery := none
    Header := [("Authorization", "Bearer " ++ cfg.AccessToken)]
    Body := none }

/-- The message of the panic raised by the unchecked assertion `v.(string)`. -/
def stringAssertionPanic (v : Option JSON) : String :=
  "interface conversion: interface {} is " ++ goTypeName v ++ ", not string"

/-- The method `RagCorpusResource.Read` (lines 219-266).  `data` is the stored state,
`exchange` the outcome of the GET exchange. -/
def Read (rt : Runtime) (cfg : ProviderConfig) (data : RagCorpusResourceModel)
    (exchange : Exchange) : Call Response :=
  let httpReq := readRequest cfg data
  match exchange with
  | .requestError err => ⟨[], .returned ⟨[errorDiag "Error creating request" err], .untouched⟩⟩
  | .transportError err =>
    ⟨[httpReq], .returned ⟨[errorDiag "Error sending request" err], .untouched⟩⟩
  | .response httpResp =>
    if httpResp.StatusCode = 404 then ⟨[httpReq], .returned ⟨[], .removed⟩⟩
    else if httpResp.StatusCode ≠ 200 then
      ⟨[httpReq], .returned ⟨[errorDiag "API Error" (apiErrorDetail httpResp)], .untouched⟩⟩
    else
      let result := (Decode rt httpResp.Body []).1
      match asString (result.get "displayName") with
      | none => ⟨[httpReq], .panicked (stringAssertionPanic (result.get "displayName"))⟩
      | some displayName =>
        let data := { data with DisplayName := StringValue displayName }
        let data :=
          match asString (result.get "description") with
          | some desc => { data with Description := StringValue desc }
          | none => data
        ⟨[httpReq], .returned ⟨[], .set data⟩⟩

/-! ## Update -/

/-- The payload of Update's PATCH (lines 282-285). -/
def updatePayload (data : RagCorpusResourceModel) : GoMap :=
  [("display_name", .str data.DisplayName.ValueString),
   ("description", .str data.Description.ValueString)]

/-- The PATCH request of Update (lines 277-302). -/
def updateRequest (cfg : ProviderConfig) (data : RagCorpusResourceModel) : HTTPRequest :=
  { Method := "PATCH"
    URL := updateURL cfg data
    RawQuery := some "updateMask=display_name,description"
    Header := [("Authorization", "Bearer " ++ cfg.AccessToken), ("Content-Type", "application/json")]
    Body := some (updatePayload data) }

/-- The method `RagCorpusResource.Update` (lines 268-323).  `data` is the decoded plan,
`exchange` the outcome of the PATCH exchange. -/
def Update (cfg : ProviderConfig) (data : RagCorpusResourceModel) (exchange : Exchange) :
    Call Response :=
  let httpReq := updateRequest cfg data
  match exchange with
  | .requestError err => ⟨[], .returned ⟨[errorDiag "Error creating request" err], .untouched⟩⟩
  | .transportError err =>
    ⟨[httpReq], .returned ⟨[errorDiag "Error sending request" err], .untouched⟩⟩
  | .response httpResp =>
    if httpResp.StatusCode ≠ 200 then
      ⟨[httpReq], .returned ⟨[errorDiag "API Error" (apiErrorDetail httpResp)], .untouched⟩⟩
    else ⟨[httpReq], .returned ⟨[], .set data⟩⟩

/-! ## Delete -/

/-- The DELETE request of Delete (lines 332-343). -/
def deleteRequest (cfg : ProviderConfig) (data : RagCorpusResourceModel) : HTTPRequest :=
  { Method := "DELETE"
    URL := deleteURL cfg data
    RawQuery := none
    Header := [("Authorization", "Bearer " ++ cfg.AccessToken)]
    Body := none }

/-- The method `RagCorpusResource.Delete` (lines 325-357).  `data` is the stored state,
`exchange` the outcome of the DELETE exchange. -/
def Delete (cfg : ProviderConfig) (data : RagCorpusResourceModel) (exchange : Exchange) :
    Call Response :=
  let httpReq := deleteRequest cfg data
  match exchange with
  | .requestError err => ⟨[], .returned ⟨[errorDiag "Error creating request" err], .untouched⟩⟩
  | .transportError err =>
    ⟨[httpReq], .returned ⟨[errorDiag "Error sending request" err], .untouched⟩⟩
  | .response httpResp =>
    if httpResp.StatusCode ≠ 200 ∧ httpResp.StatusCode ≠ 404 then
      ⟨[httpReq], .returned ⟨[errorDiag "API Error" (apiErrorDetail httpResp)], .untouched⟩⟩
    else ⟨[httpReq], .returned ⟨[], .untouched⟩⟩

/-! ## Auxiliary definitions for the statements -/

/-- The map `result` of Create after the first `k` poll bodies were decoded into
`result0`, the map of the initial response. -/
def stateAfter (rt : Runtime) (polls : Nat → Exchange) (result0 : GoMap) : Nat → GoMap
  | 0 => result0
  | k + 1 =>
    match polls k with
    | .response pollResp => (Unmarshal rt pollResp.Body (stateAfter rt polls result0 k)).1
    | _ => stateAfter rt polls result0 k

/-- What a body decodes to on its own, into a nil map. -/
def bodyMap (rt : Runtime) (body : String) : GoMap := (Unmarshal rt body []).1

/-- A runtime whose decoder knows the bodies of a table and rejects every other body;
its formatter prints the keys of a map. -/
def tableRuntime (table : List (String × JSON)) : Runtime :=
  let decode : String → Except String JSON := fun body =>
    match table.find? (fun entry => entry.1 = body) with
    | some entry => .ok entry.2
    | none => .error "unexpected end of JSON input"
  { jsonUnmarshal := decode
    jsonDecode := decode
    formatV := fun m => "map[" ++ " ".intercalate (m.map (fun kv => kv.1)) ++ "]" }

/-- A 200 response with the given body. -/
def ok200 (body : String) : HTTPResponse := ⟨"200 OK", 200, body⟩

/-! ## Sample inputs -/

def sampleConfig : ProviderConfig := ⟨"p", "europe-west4", "token"⟩

def corpusName : String := "projects/p/locations/europe-west4/ragCorpora/1"

/-- A plan as Create receives it: the computed attributes are still unknown. -/
def samplePlan : RagCorpusResourceModel :=
  ⟨.unknown, .unknown, .value "A", .value "notes", some ⟨.value "text-embedding-004"⟩⟩

/-- A stored state as Read, Update and Delete receive it. -/
def sampleState : RagCorpusResourceModel :=
  ⟨.value corpusName, .value corpusName, .value "A", .value "notes",
    some ⟨.value "text-embedding-004"⟩⟩

/-- An operation that is not done. -/
def pendingBody : String := "\x7b\x22name\x22:\x22operations/7\x22,\x22done\x22:false\x7d"

/-- An operation that is done and carries the created corpus. -/
def doneBody : String := "\x7b\x22name\x22:\x22operations/7\x22,\x22done\x22:true,\x22response\x22:\x7b\x22name\x22:\x22projects/p/locations/europe-west4/ragCorpora/1\x22\x7d\x7d"

/-- An operation that is done and carries an error. -/
def failedBody : String := "\x7b\x22name\x22:\x22operations/7\x22,\x22done\x22:true,\x22error\x22:\x7b\x22code\x22:13\x7d\x7d"

/-- An operation that is done and carries both an error and a response. -/
def doneWithErrorBody : String := "\x7b\x22name\x22:\x22operations/7\x22,\x22done\x22:true,\x22error\x22:\x7b\x22code\x22:13\x7d,\x22response\x22:\x7b\x22name\x22:\x22projects/p/locations/europe-west4/ragCorpora/1\x22\x7d\x7d"

/-- A corpus as the GET of Read returns it. -/
def corpusBody : String := "\x7b\x22name\x22:\x22projects/p/locations/europe-west4/ragCorpora/1\x22,\x22displayName\x22:\x22B\x22,\x22description\x22:\x22D\x22\x7d"

/-- An empty JSON object. -/
def emptyObjectBody : String := "\x7b\x7d"

/-- The decoder of the sample bodies. -/
def sampleRuntime : Runtime :=
  tableRuntime
    [(pendingBody, .obj [("name", .str "operations/7"), ("done", .bool false)]),
     (doneBody, .obj [("name", .str "operations/7"), ("done", .bool true),
        ("response", .obj [("name", .str corpusName)])]),
     (failedBody, .obj [("name", .str "operations/7"), ("done", .bool true),
        ("error", .obj [("code", .num "13")])]),
     (doneWithErrorBody, .obj [("name", .str "operations/7"), ("done", .bool true),
        ("error", .obj [("code", .num "13")]), ("response", .obj [("name", .str corpusName)])]),
     (corpusBody, .obj [("name", .str corpusName), ("displayName", .str "B"),
        ("description", .str "D")]),
     (emptyObjectBody, .obj [])]

/-- Polls that answer with a pending operation `pending` times, then with `last`. -/
def pollsThen (pending : Nat) (last : String) : Nat → Exchange :=
  fun j => .response (ok200 (if j < pending then pendingBody else last))

/-! ## Endpoint routing -/

theorem takeWhile_until {α : Type} (p : α → Bool) (xs : List α) (c : α) (ys : List α)
    (hxs : ∀ x ∈ xs, p x = true) (hc : p c = false) :
    (xs ++ c :: ys).takeWhile p = xs := by
  induction xs with
  | nil => simp [List.takeWhile, hc]
  | cons x xs ih =>
    have hx : p x = true := hxs x (List.mem_cons_self x xs)
    have hrest : ∀ y ∈ xs, p y = true := fun y hy => hxs y (List.mem_cons_of_mem x hy)
    simp [List.takeWhile, hx, ih hrest]

/-- The host of any URL made of the scheme, a region of host-name characters, the
dash-prefixed service host and a path of plain characters. -/
theorem urlHost_of_data (url : String) (r tail : List Char)
    (hr : ∀ c ∈ r, c ∈ hostAlphabet) (htail : ∀ c ∈ tail, urlChar c = true)
    (hurl : url.data = "https://".data ++ (r ++ ("-aiplatform.googleapis.com".data ++ '/' :: tail))) :
    urlHost url = some ⟨r ++ "-aiplatform.googleapis.com".data⟩ := by
  have halpha : ∀ c ∈ hostAlphabet, urlChar c = true ∧ (!endsAuthority c) = true := by decide
  have hlit : ∀ c ∈ "-aiplatform.googleapis.com".data, c ∈ hostAlphabet := by decide
  have hhost : ∀ c ∈ r ++ "-aiplatform.googleapis.com".data, c ∈ hostAlphabet := by
    intro c hc
    rcases List.mem_append.mp hc with h | h
    · exact hr c h
    · exact hlit c h
  have hauth : urlAuthority url = r ++ "-aiplatform.googleapis.com".data := by
    unfold urlAuthority
    rw [hurl]
    have hlen : "https://".length = "https://".data.length := rfl
    rw [hlen, List.drop_left, ← List.append_assoc]
    apply takeWhile_until
    · intro x hx
      exact (halpha x (hhost x hx)).2
    · decide
  have hscheme : "https://".data.isPrefixOf url.data = true := by
    rw [hurl]
    exact List.isPrefixOf_iff_prefix.mpr (List.prefix_append _ _)
  have hchars : url.data.all urlChar = true := by
    rw [hurl, List.all_eq_true]
    intro c hc
    have hs : ∀ y ∈ "https://".data, urlChar y = true := by decide
    rcases List.mem_append.mp hc with h | h
    · exact hs c h
    · rw [← List.append_assoc] at h
      rcases List.mem_append.mp h with h | h
      · exact (halpha c (hhost c h)).1
      · rcases List.mem_cons.mp h with h | h
        · rw [h]; decide
        · exact htail c h
  have hall : (urlAuthority url).all (fun c => decide (c ∈ hostAlphabet)) = true := by
    rw [hauth, List.all_eq_true]
    intro c hc
    exact decide_eq_true (hhost c hc)
  unfold urlHost
  rw [if_pos ⟨hscheme, hchars⟩, if_pos hall, hauth]

theorem createURL_data (cfg : ProviderConfig) :
    (createURL cfg).data = "https://".data ++ (cfg.Region.data ++
      ("-aiplatform.googleapis.com".data ++ '/' :: ("v1beta1/projects/" ++ cfg.Project
        ++ "/locations/" ++ cfg.Region ++ "/ragCorpora").data)) := by
  unfold createURL
  by_cases h : cfg.Region = "us-central1"
  · simp only [h, ne_eq, not_true_eq_false, if_false, String.data_append]
    simp
  · simp only [h, ne_eq, not_false_eq_true, if_true, String.data_append]
    simp

theorem namedURL_data (cfg : ProviderConfig) (name : String) :
    (namedURL cfg name).data = "https://".data ++ (cfg.Region.data ++
      ("-aiplatform.googleapis.com".data ++ '/' :: ("v1beta1/" ++ name).data)) := by
  unfold namedURL
  by_cases h : cfg.Region = "us-central1"
  · simp only [h, if_true, String.data_append]
    simp
  · simp only [h, if_false, String.data_append]
    simp

theorem hostAlphabet_urlChar (c : Char) (h : c ∈ hostAlphabet) : urlChar c = true := by
  revert c
  decide

theorem createURL_eq (cfg : ProviderConfig) :
    createURL cfg = "https://" ++ cfg.Region ++ "-" ++ serviceHost ++ "/v1beta1/projects/"
      ++ cfg.Project ++ "/locations/" ++ cfg.Region ++ "/ragCorpora" := by
  apply String.ext
  rw [createURL_data]
  simp [String.data_append, serviceHost]

theorem namedURL_eq (cfg : ProviderConfig) (name : String) :
    namedURL cfg name = "https://" ++ cfg.Region ++ "-" ++ serviceHost ++ "/v1beta1/" ++ name := by
  apply String.ext
  rw [namedURL_data]
  simp [String.data_append, serviceHost]

theorem urlHost_namedURL (cfg : ProviderConfig) (name : String) (hr : hostSafe cfg.Region)
    (hn : pathSafe name) : urlHost (namedURL cfg name) = some (cfg.Region ++ "-" ++ serviceHost) := by
  have htarget : cfg.Region ++ "-" ++ serviceHost
      = ⟨cfg.Region.data ++ "-aiplatform.googleapis.com".data⟩ := by
    apply String.ext
    simp [String.data_append, serviceHost]
  rw [htarget]
  refine urlHost_of_data _ _ _ hr ?_ (namedURL_data cfg name)
  intro c hc
  have hlit : ∀ y ∈ "v1beta1/".data, urlChar y = true := by decide
  rw [String.data_append] at hc
  rcases List.mem_append.mp hc with h | h
  · exact hlit c h
  · exact hn c h

theorem urlHost_createURL (cfg : ProviderConfig) (hr : hostSafe cfg.Region)
    (hp : pathSafe cfg.Project) :
    urlHost (createURL cfg) = some (cfg.Region ++ "-" ++ serviceHost) := by
  have htarget : cfg.Region ++ "-" ++ serviceHost
      = ⟨cfg.Region.data ++ "-aiplatform.googleapis.com".data⟩ := by
    apply String.ext
    simp [String.data_append, serviceHost]
  rw [htarget]
  refine urlHost_of_data _ _ _ hr ?_ (createURL_data cfg)
  intro c hc
  have h1 : ∀ y ∈ "v1beta1/projects/".data, urlChar y = true := by decide
  have h2 : ∀ y ∈ "/locations/".data, urlChar y = true := by decide
  have h3 : ∀ y ∈ "/ragCorpora".data, urlChar y = true := by decide
  simp only [String.data_append, List.mem_append] at hc
  rcases hc with (((h | h) | h) | h) | h
  · exact h1 c h
  · exact hp c h
  · exact h2 c h
  · exact hostAlphabet_urlChar c (hr c h)
  · exact h3 c h

/-- C1 as stated fails: with the region "us-central1" the host of the URL of every call
site is "us-central1-" followed by the service host, not the bare service host; and a
region that contains a URL delimiter does not begin the host. -/
theorem default_region_host_keeps_prefix :
    createURL ⟨"p", "us-central1", "t"⟩
      = "https://us-central1-aiplatform.googleapis.com/v1beta1/projects/p/locations/us-central1/ragCorpora" ∧
    urlHost (createURL ⟨"p", "us-central1", "t"⟩) = some ("us-central1-" ++ serviceHost) ∧
    urlHost (pollURL ⟨"p", "us-central1", "t"⟩ "projects/p/locations/us-central1/operations/7")
      = some ("us-central1-" ++ serviceHost) ∧
    urlHost (readURL ⟨"p", "us-central1", "t"⟩
      ⟨.null, .value "projects/p/locations/us-central1/ragCorpora/1", .null, .null, none⟩)
      = some ("us-central1-" ++ serviceHost) ∧
    urlHost (createURL ⟨"p", "us-central1", "t"⟩) ≠ some serviceHost ∧
    urlHost (createURL ⟨"p", "eu/west", "t"⟩) = some "eu" := by
  decide

/-- C1, amended: at each of the five call sites (Create's POST, Create's poll, Read,
Update, Delete) and for every region, "us-central1" included, the URL built is the
scheme, the region, a dash, the service host and the path.  Hence for every region made
of host-name characters and every project and path made of plain URL characters the
host of the URL is the region, a dash and the service host, the same at the five call
sites. -/
theorem endpoint_host_region_prefixed (cfg : ProviderConfig) (opName : String)
    (data : RagCorpusResourceModel) :
    (createURL cfg = "https://" ++ cfg.Region ++ "-" ++ serviceHost ++ "/v1beta1/projects/"
        ++ cfg.Project ++ "/locations/" ++ cfg.Region ++ "/ragCorpora" ∧
      pollURL cfg opName = "https://" ++ cfg.Region ++ "-" ++ serviceHost ++ "/v1beta1/" ++ opName ∧
      readURL cfg data
        = "https://" ++ cfg.Region ++ "-" ++ serviceHost ++ "/v1beta1/" ++ data.Name.ValueString ∧
      updateURL cfg data
        = "https://" ++ cfg.Region ++ "-" ++ serviceHost ++ "/v1beta1/" ++ data.Name.ValueString ∧
      deleteURL cfg data
        = "https://" ++ cfg.Region ++ "-" ++ serviceHost ++ "/v1beta1/" ++ data.Name.ValueString) ∧
    (hostSafe cfg.Region → pathSafe cfg.Project → pathSafe opName →
      pathSafe data.Name.ValueString →
      urlHost (createURL cfg) = some (cfg.Region ++ "-" ++ serviceHost) ∧
      urlHost (pollURL cfg opName) = some (cfg.Region ++ "-" ++ serviceHost) ∧
      urlHost (readURL cfg data) = some (cfg.Region ++ "-" ++ serviceHost) ∧
      urlHost (updateURL cfg data) = some (cfg.Region ++ "-" ++ serviceHost) ∧
      urlHost (deleteURL cfg data) = some (cfg.Region ++ "-" ++ serviceHost)) := by
  constructor
  · exact ⟨createURL_eq cfg, namedURL_eq cfg _, namedURL_eq cfg _, namedURL_eq cfg _,
      namedURL_eq cfg _⟩
  · intro hr hp ho hn
    exact ⟨urlHost_createURL cfg hr hp, urlHost_namedURL cfg _ hr ho,
      urlHost_namedURL cfg _ hr hn, urlHost_namedURL cfg _ hr hn, urlHost_namedURL cfg _ hr hn⟩

theorem endpoint_host_region_prefixed_witness :
    hostSafe "us-central1" ∧ pathSafe "p" ∧
    pathSafe "projects/p/locations/us-central1/operations/7" ∧
    urlHost (createURL ⟨"p", "us-central1", "t"⟩) = some ("us-central1" ++ "-" ++ serviceHost) ∧
    urlHost (pollURL ⟨"p", "us-central1", "t"⟩ "projects/p/locations/us-central1/operations/7")
      = some ("us-central1" ++ "-" ++ serviceHost) ∧
    urlHost (deleteURL ⟨"p", "us-central1", "t"⟩
      ⟨.null, .value "projects/p/locations/us-central1/ragCorpora/1", .null, .null, none⟩)
      = some ("us-central1" ++ "-" ++ serviceHost) :=
  have hr : hostSafe "us-central1" := by unfold hostSafe; decide
  have hp : pathSafe "p" := by unfold pathSafe; decide
  have ho : pathSafe "projects/p/locations/us-central1/operations/7" := by
    unfold pathSafe; decide
  have hn : pathSafe "projects/p/locations/us-central1/ragCorpora/1" := by
    unfold pathSafe; decide
  have w := (endpoint_host_region_prefixed ⟨"p", "us-central1", "t"⟩
    "projects/p/locations/us-central1/operations/7"
    ⟨.null, .value "projects/p/locations/us-central1/ragCorpora/1", .null, .null, none⟩).2
    hr hp ho hn
  ⟨hr, hp, ho, w.1, w.2.1, w.2.2.2.2⟩

/-- The URLs no request is built for have no host here: a region that carries a port or
a space. -/
theorem urlHost_undefined_examples :
    urlHost (createURL ⟨"p", "eu:8080", "t"⟩) = none ∧
    urlHost (createURL ⟨"p", "eu west", "t"⟩) = none ∧
    urlHost (pollURL ⟨"p", "europe-west4", "t"⟩ "operations/%zz") = none := by
  decide

/-! ## Go maps -/

theorem GoMap.get_set (m : GoMap) (k k' : String) (v : JSON) :
    (GoMap.set m k v).get k' = if k = k' then some v else m.get k' := by
  induction m with
  | nil => simp [GoMap.set, GoMap.get]
  | cons e rest ih =>
    obtain ⟨ke, ve⟩ := e
    by_cases h1 : ke = k
    · subst h1
      by_cases h2 : ke = k' <;> simp [GoMap.set, GoMap.get, h2]
    · by_cases h2 : ke = k'
      · subst h2
        have h3 : ¬ k = ke := fun h => h1 h.symm
        simp [GoMap.set, GoMap.get, h1, h3]
      · simp [GoMap.set, GoMap.get, h1, h2, ih]

theorem GoMap.get_assignAll (kvs : List (String × JSON)) (m : GoMap) (k : String) :
    (GoMap.assignAll m kvs).get k
      = kvs.foldl (fun acc kv => if kv.1 = k then some kv.2 else acc) (m.get k) := by
  induction kvs generalizing m with
  | nil => simp [GoMap.assignAll]
  | cons kv rest ih =>
    have hstep := ih (GoMap.set m kv.1 kv.2)
    simp only [GoMap.assignAll, List.foldl_cons] at hstep ⊢
    rw [hstep, GoMap.get_set]

theorem foldl_pick_default (kvs : List (String × JSON)) (k : String) (a : Option JSON) :
    kvs.foldl (fun acc kv => if kv.1 = k then some kv.2 else acc) a
      = match kvs.foldl (fun acc kv => if kv.1 = k then some kv.2 else acc) none with
        | some v => some v
        | none => a := by
  induction kvs generalizing a with
  | nil => simp
  | cons kv rest ih =>
    simp only [List.foldl_cons]
    by_cases h : kv.1 = k
    · simp only [h, if_true]
      rw [ih (some kv.2)]
      generalize List.foldl _ none rest = x
      cases x <;> rfl
    · simp only [h, if_false]
      exact ih a

/-- A key assigned by the members of an object reads the same whatever map they are
merged into. -/
theorem GoMap.get_assignAll_of_some (kvs : List (String × JSON)) (m : GoMap) (k : String)
    (v : JSON) (h : (GoMap.assignAll [] kvs).get k = some v) :
    (GoMap.assignAll m kvs).get k = some v := by
  rw [GoMap.get_assignAll] at h ⊢
  rw [foldl_pick_default]
  simp only [GoMap.get] at h
  rw [h]

/-- A key the members of an object do not assign keeps its entry. -/
theorem GoMap.get_assignAll_of_none (kvs : List (String × JSON)) (m : GoMap) (k : String)
    (h : (GoMap.assignAll [] kvs).get k = none) :
    (GoMap.assignAll m kvs).get k = m.get k := by
  rw [GoMap.get_assignAll] at h ⊢
  rw [foldl_pick_default]
  simp only [GoMap.get] at h
  rw [h]

/-- A key a body assigns on its own reads the same after the body is decoded into any
map. -/
theorem Unmarshal_get_of_some (rt : Runtime) (body : String) (m : GoMap) (k : String) (v : JSON)
    (h : (bodyMap rt body).get k = some v) : (Unmarshal rt body m).1.get k = some v := by
  unfold bodyMap Unmarshal storeInto at h
  unfold Unmarshal storeInto
  cases hp : rt.jsonUnmarshal body with
  | error e => rw [hp] at h; simp [GoMap.get] at h
  | ok j =>
    rw [hp] at h
    cases j with
    | obj kvs => exact GoMap.get_assignAll_of_some kvs m k v h
    | _ => simp [GoMap.get] at h

/-- After a body is decoded into a map, a key reads as the body assigns it or as it
read before. -/
theorem Unmarshal_get_cases (rt : Runtime) (body : String) (m : GoMap) (k : String) :
    (Unmarshal rt body m).1.get k = (bodyMap rt body).get k ∨
    (Unmarshal rt body m).1.get k = m.get k := by
  unfold bodyMap Unmarshal storeInto
  cases hp : rt.jsonUnmarshal body with
  | error e => right; rfl
  | ok j =>
    cases j with
    | obj kvs =>
      cases hk : (GoMap.assignAll [] kvs).get k with
      | none => right; exact GoMap.get_assignAll_of_none kvs m k hk
      | some v => left; exact GoMap.get_assignAll_of_some kvs m k v hk
    | null => left; rfl
    | _ => right; rfl

/-! ## The poll loop -/

/-- The loop run from iteration `i` with `n` iterations left: when every poll before
`k` is answered and leaves the operation not done, and at `k` the operation is done or
the budget is spent, control leaves the loop after `k - i` further polls. -/
theorem pollLoop_finished (rt : Runtime) (cfg : ProviderConfig) (opName : String)
    (polls : Nat → Exchange) (result0 : GoMap) :
    ∀ (n i k : Nat) (sent : List HTTPRequest), i ≤ k → k ≤ i + n →
      (∀ j, i ≤ j → j < k → ∃ r, polls j = .response r) →
      (∀ j, i ≤ j → j < k → isTrue ((stateAfter rt polls result0 j).get "done") = false) →
      (isTrue ((stateAfter rt polls result0 k).get "done") = true ∨ k = i + n) →
      pollLoop rt cfg opName polls n i (stateAfter rt polls result0 i) sent
        = .finished (sent ++ List.replicate (k - i) (pollRequest cfg opName))
            (stateAfter rt polls result0 k) := by
  intro n
  induction n with
  | zero =>
    intro i k sent hik hkn _ _ _
    have hk : k = i := by omega
    subst hk
    simp [pollLoop]
  | succ n ih =>
    intro i k sent hik hkn hresp hnot hend
    by_cases hk : k = i
    · subst hk
      have hdone : isTrue ((stateAfter rt polls result0 k).get "done") = true := by
        rcases hend with h | h
        · exact h
        · omega
      simp [pollLoop, hdone]
    · have hlt : i < k := by omega
      have hnd := hnot i (le_refl i) hlt
      obtain ⟨r, hr⟩ := hresp i (le_refl i) hlt
      have hnext : stateAfter rt polls result0 (i + 1)
          = (Unmarshal rt r.Body (stateAfter rt polls result0 i)).1 := by
        simp [stateAfter, hr]
      have hrec := ih (i + 1) k (sent ++ [pollRequest cfg opName]) (by omega) (by omega)
        (fun j h1 h2 => hresp j (by omega) h2) (fun j h1 h2 => hnot j (by omega) h2)
        (by rcases hend with h | h
            · exact Or.inl h
            · exact Or.inr (by omega))
      have hrep : List.replicate (k - i) (pollRequest cfg opName)
          = pollRequest cfg opName :: List.replicate (k - (i + 1)) (pollRequest cfg opName) := by
        have : k - i = (k - (i + 1)) + 1 := by omega
        rw [this, List.replicate_succ]
      rw [hrep]
      simp only [pollLoop, hnd, hr]
      rw [← hnext, hrec]
      simp

/-- Create, from a 200 response carrying a string operation name, under the conditions
of `pollLoop_finished`: it sends the POST and `k` polls and ends in the code after the
loop. -/
theorem Create_of_polls (rt : Runtime) (cfg : ProviderConfig) (data : RagCorpusResourceModel)
    (r0 : HTTPResponse) (polls : Nat → Exchange) (result0 : GoMap) (opName : String) (k : Nat)
    (h200 : r0.StatusCode = 200)
    (hbody : Unmarshal rt r0.Body [] = (result0, none))
    (hname : asString (result0.get "name") = some opName)
    (hk : k ≤ 10)
    (hresp : ∀ j, j < k → ∃ r, polls j = .response r)
    (hnot : ∀ j, j < k → isTrue ((stateAfter rt polls result0 j).get "done") = false)
    (hend : isTrue ((stateAfter rt polls result0 k).get "done") = true ∨ k = 10) :
    Create rt cfg data (.response r0) polls
      = ⟨createRequest cfg data :: List.replicate k (pollRequest cfg opName),
          .returned (createFinish rt data (stateAfter rt polls result0 k))⟩ := by
  have hloop := pollLoop_finished rt cfg opName polls result0 10 0 k [createRequest cfg data]
    (Nat.zero_le k) (by omega) (fun j _ h => hresp j h) (fun j _ h => hnot j h)
    (by rcases hend with h | h
        · exact Or.inl h
        · exact Or.inr (by omega))
  simp only [stateAfter, Nat.sub_zero] at hloop
  simp only [Create, h200, hbody, hname, hloop]
  simp

/-- A body that assigns a key on its own decodes without error. -/
theorem Unmarshal_ok_of_get (rt : Runtime) (body : String) (k : String) (v : JSON)
    (h : (bodyMap rt body).get k = some v) :
    Unmarshal rt body [] = (bodyMap rt body, none) := by
  unfold bodyMap Unmarshal storeInto at h
  unfold bodyMap Unmarshal storeInto
  cases hp : rt.jsonUnmarshal body with
  | error e => rw [hp] at h; simp [GoMap.get] at h
  | ok j =>
    rw [hp] at h
    cases j with
    | obj kvs => rfl
    | _ => simp [GoMap.get] at h

theorem get_of_asString {v : Option JSON} {s : String} (h : asString v = some s) :
    v = some (.str s) := by
  cases v with
  | none => simp [asString] at h
  | some j =>
    cases j <;> simp [asString] at h
    rw [h]

theorem isTrue_false_of_eq {v w : Option JSON} (h : v = w) (hw : isTrue w = false) :
    isTrue v = false := by
  rw [h]; exact hw

/-! ## Create: polling -/

/-- C2: from a 200 response that carries a string operation name and is not done, when
the first 9 polls report done=false and the 10th reports done=true with a response
object whose name is the string N, Create sends the POST and exactly 10 polls, adds no
diagnostic, and sets the state to the plan with Name and ID equal to N (so its
DisplayName is the desired one). -/
theorem create_succeeds_on_tenth_poll (rt : Runtime) (cfg : ProviderConfig)
    (data : RagCorpusResourceModel) (r0 : HTTPResponse) (polls : Nat → Exchange)
    (opName N : String) (respKvs : List (String × JSON))
    (h200 : r0.StatusCode = 200)
    (hname : asString ((bodyMap rt r0.Body).get "name") = some opName)
    (hinit : isTrue ((bodyMap rt r0.Body).get "done") = false)
    (hfirst : ∀ j, j < 9 →
      ∃ r, polls j = .response r ∧ (bodyMap rt r.Body).get "done" = some (.bool false))
    (htenth : ∃ r, polls 9 = .response r ∧ (bodyMap rt r.Body).get "done" = some (.bool true) ∧
      (bodyMap rt r.Body).get "response" = some (.obj respKvs))
    (hN : (GoMap.assignAll [] respKvs).get "name" = some (.str N)) :
    Create rt cfg data (.response r0) polls
      = ⟨createRequest cfg data :: List.replicate 10 (pollRequest cfg opName),
          .returned ⟨[], .set { data with Name := .value N, ID := .value N }⟩⟩ ∧
    ({ data with Name := .value N, ID := .value N } : RagCorpusResourceModel).DisplayName
      = data.DisplayName := by
  refine ⟨?_, rfl⟩
  have hbody := Unmarshal_ok_of_get rt r0.Body "name" _ (get_of_asString hname)
  have hnot : ∀ j, j < 10 →
      isTrue ((stateAfter rt polls (bodyMap rt r0.Body) j).get "done") = false := by
    intro j
    induction j with
    | zero => intro _; exact hinit
    | succ j _ =>
      intro hj
      obtain ⟨r, hr, hd⟩ := hfirst j (by omega)
      have hget := Unmarshal_get_of_some rt r.Body (stateAfter rt polls (bodyMap rt r0.Body) j)
        "done" _ hd
      simp only [stateAfter, hr, hget, isTrue]
  obtain ⟨r, hr, hd, hresponse⟩ := htenth
  have hanswered : ∀ j, j < 10 → ∃ r, polls j = .response r := by
    intro j hj
    by_cases h9 : j < 9
    · obtain ⟨r', hr', _⟩ := hfirst j h9
      exact ⟨r', hr'⟩
    · have hj9 : j = 9 := by omega
      exact ⟨r, hj9 ▸ hr⟩
  have hdone : (stateAfter rt polls (bodyMap rt r0.Body) 10).get "done" = some (.bool true) := by
    have := Unmarshal_get_of_some rt r.Body (stateAfter rt polls (bodyMap rt r0.Body) 9) "done" _ hd
    simpa only [stateAfter, hr] using this
  have hrespget : (stateAfter rt polls (bodyMap rt r0.Body) 10).get "response"
      = some (.obj respKvs) := by
    have := Unmarshal_get_of_some rt r.Body (stateAfter rt polls (bodyMap rt r0.Body) 9)
      "response" _ hresponse
    simpa only [stateAfter, hr] using this
  rw [Create_of_polls rt cfg data r0 polls (bodyMap rt r0.Body) opName 10 h200 hbody hname
    (le_refl 10) hanswered hnot (Or.inr rfl)]
  simp [createFinish, hdone, hrespget, isTrue, asMap, hN, asString, StringValue]

/-- C3: from a 200 response that carries a string operation name and is not done, when
none of the first 10 polls reports done=true, Create sends the POST and exactly 10
polls, then returns the single diagnostic "Operation timed out" and writes no state;
that diagnostic differs from every "Operation failed or unexpected result" one. -/
theorem create_times_out (rt : Runtime) (cfg : ProviderConfig)
    (data : RagCorpusResourceModel) (r0 : HTTPResponse) (polls : Nat → Exchange)
    (opName : String)
    (h200 : r0.StatusCode = 200)
    (hname : asString ((bodyMap rt r0.Body).get "name") = some opName)
    (hinit : isTrue ((bodyMap rt r0.Body).get "done") = false)
    (hpolls : ∀ j, j < 10 →
      ∃ r, polls j = .response r ∧ isTrue ((bodyMap rt r.Body).get "done") = false) :
    Create rt cfg data (.response r0) polls
      = ⟨createRequest cfg data :: List.replicate 10 (pollRequest cfg opName),
          .returned ⟨[errorDiag "Operation timed out" "Creation operation did not complete in time"],
            .untouched⟩⟩ ∧
    ∀ detail, errorDiag "Operation timed out" "Creation operation did not complete in time"
      ≠ errorDiag "Operation failed or unexpected result" detail := by
  constructor
  · have hbody := Unmarshal_ok_of_get rt r0.Body "name" _ (get_of_asString hname)
    have hnot : ∀ j, j ≤ 10 →
        isTrue ((stateAfter rt polls (bodyMap rt r0.Body) j).get "done") = false := by
      intro j
      induction j with
      | zero => intro _; exact hinit
      | succ j ih =>
        intro hj
        obtain ⟨r, hr, hd⟩ := hpolls j (by omega)
        have hprev := ih (by omega)
        simp only [stateAfter, hr]
        rcases Unmarshal_get_cases rt r.Body (stateAfter rt polls (bodyMap rt r0.Body) j) "done"
          with h | h
        · exact isTrue_false_of_eq h hd
        · exact isTrue_false_of_eq h hprev
    rw [Create_of_polls rt cfg data r0 polls (bodyMap rt r0.Body) opName 10 h200 hbody hname
      (le_refl 10) (fun j hj => (hpolls j hj).imp fun _ h => h.1)
      (fun j hj => hnot j (by omega)) (Or.inr rfl)]
    simp [createFinish, hnot 10 (le_refl 10)]
  · intro detail h
    have hs := congrArg Diagnostic.summary h
    simp [errorDiag] at hs

/-! ## Create: terminal states -/

/-- C4, amended: Create never reads the error field.  For every operation state with
done == true, reached by the initial response (k = 0) or by the k-th poll, Create stops
after k polls; it returns the diagnostic "Operation failed or unexpected result" and
writes no state when the response field of that state is absent or not an object, and
it sets the state, with no diagnostic, when the response field is an object. -/
theorem create_done_outcome_by_response (rt : Runtime) (cfg : ProviderConfig)
    (data : RagCorpusResourceModel) (r0 : HTTPResponse) (polls : Nat → Exchange)
    (opName : String) (k : Nat)
    (h200 : r0.StatusCode = 200)
    (hname : asString ((bodyMap rt r0.Body).get "name") = some opName)
    (hk : k ≤ 10)
    (hresp : ∀ j, j < k → ∃ r, polls j = .response r)
    (hnot : ∀ j, j < k →
      isTrue ((stateAfter rt polls (bodyMap rt r0.Body) j).get "done") = false)
    (hdone : isTrue ((stateAfter rt polls (bodyMap rt r0.Body) k).get "done") = true) :
    (Create rt cfg data (.response r0) polls).sent
      = createRequest cfg data :: List.replicate k (pollRequest cfg opName) ∧
    (asMap ((stateAfter rt polls (bodyMap rt r0.Body) k).get "response") = none →
      (Create rt cfg data (.response r0) polls).result
        = .returned ⟨[errorDiag "Operation failed or unexpected result"
            (rt.formatV (stateAfter rt polls (bodyMap rt r0.Body) k))], .untouched⟩) ∧
    (∀ responseMap,
      asMap ((stateAfter rt polls (bodyMap rt r0.Body) k).get "response") = some responseMap →
      (Create rt cfg data (.response r0) polls).result
        = .returned ⟨[], .set { data with
            Name := StringValue ((asString (responseMap.get "name")).getD "")
            ID := StringValue ((asString (responseMap.get "name")).getD "") }⟩) := by
  have hbody := Unmarshal_ok_of_get rt r0.Body "name" _ (get_of_asString hname)
  rw [Create_of_polls rt cfg data r0 polls (bodyMap rt r0.Body) opName k h200 hbody hname
    hk hresp hnot (Or.inl hdone)]
  refine ⟨rfl, ?_, ?_⟩
  · intro hnone
    simp [createFinish, hdone, hnone]
  · intro responseMap hsome
    simp [createFinish, hdone, hsome]

theorem create_succeeds_on_tenth_poll_witness :
    Create sampleRuntime sampleConfig samplePlan (.response (ok200 pendingBody))
        (pollsThen 9 doneBody)
      = ⟨createRequest sampleConfig samplePlan
            :: List.replicate 10 (pollRequest sampleConfig "operations/7"),
          .returned ⟨[], .set { samplePlan with Name := .value corpusName, ID := .value corpusName }⟩⟩ :=
  (create_succeeds_on_tenth_poll sampleRuntime sampleConfig samplePlan (ok200 pendingBody)
    (pollsThen 9 doneBody) "operations/7" corpusName [("name", .str corpusName)]
    rfl rfl rfl
    (fun j hj => ⟨ok200 pendingBody, by simp [pollsThen, hj], rfl⟩)
    ⟨ok200 doneBody, by simp [pollsThen], rfl, rfl⟩
    rfl).1

theorem create_times_out_witness :
    Create sampleRuntime sampleConfig samplePlan (.response (ok200 pendingBody))
        (pollsThen 10 doneBody)
      = ⟨createRequest sampleConfig samplePlan
            :: List.replicate 10 (pollRequest sampleConfig "operations/7"),
          .returned ⟨[errorDiag "Operation timed out" "Creation operation did not complete in time"],
            .untouched⟩⟩ :=
  (create_times_out sampleRuntime sampleConfig samplePlan (ok200 pendingBody)
    (pollsThen 10 doneBody) "operations/7" rfl rfl rfl
    (fun j hj => ⟨ok200 pendingBody, by simp [pollsThen, hj], rfl⟩)).1

/-- C4 as stated fails: an operation that is done and carries both an error field and a
response object makes Create succeed and set the state, as the initial response and as
a poll result alike. -/
theorem create_succeeds_despite_error_field :
    (bodyMap sampleRuntime doneWithErrorBody).get "done" = some (.bool true) ∧
    (bodyMap sampleRuntime doneWithErrorBody).get "error" = some (.obj [("code", .num "13")]) ∧
    Create sampleRuntime sampleConfig samplePlan (.response (ok200 doneWithErrorBody))
        (pollsThen 0 doneWithErrorBody)
      = ⟨[createRequest sampleConfig samplePlan],
          .returned ⟨[], .set { samplePlan with Name := .value corpusName, ID := .value corpusName }⟩⟩ ∧
    Create sampleRuntime sampleConfig samplePlan (.response (ok200 pendingBody))
        (pollsThen 0 doneWithErrorBody)
      = ⟨[createRequest sampleConfig samplePlan, pollRequest sampleConfig "operations/7"],
          .returned ⟨[], .set { samplePlan with Name := .value corpusName, ID := .value corpusName }⟩⟩ :=
  ⟨rfl, rfl, rfl, rfl⟩

theorem create_done_outcome_by_response_witness :
    (stateAfter sampleRuntime (pollsThen 0 failedBody) (bodyMap sampleRuntime pendingBody) 1).get "error"
      = some (.obj [("code", .num "13")]) ∧
    (Create sampleRuntime sampleConfig samplePlan (.response (ok200 pendingBody))
        (pollsThen 0 failedBody)).sent
      = [createRequest sampleConfig samplePlan, pollRequest sampleConfig "operations/7"] ∧
    (Create sampleRuntime sampleConfig samplePlan (.response (ok200 pendingBody))
        (pollsThen 0 failedBody)).result
      = .returned ⟨[errorDiag "Operation failed or unexpected result"
          (sampleRuntime.formatV
            (stateAfter sampleRuntime (pollsThen 0 failedBody) (bodyMap sampleRuntime pendingBody) 1))],
          .untouched⟩ :=
  have w := create_done_outcome_by_response sampleRuntime sampleConfig samplePlan
    (ok200 pendingBody) (pollsThen 0 failedBody) "operations/7" 1 rfl rfl (by decide)
    (fun j _ => ⟨ok200 (if j < 0 then pendingBody else failedBody), rfl⟩)
    (fun j hj => by
      have hj0 : j = 0 := by omega
      subst hj0
      rfl)
    rfl
  ⟨rfl, w.1, w.2.1 rfl⟩

/-! ## Read -/

/-- C5 fails on the code: a 200 response whose body is an empty object, or is not JSON
at all, makes Read panic in the unchecked assertion on displayName; no diagnostic is
returned. -/
theorem read_panics_without_displayName :
    Read sampleRuntime sampleConfig sampleState (.response (ok200 emptyObjectBody))
      = ⟨[readRequest sampleConfig sampleState],
          .panicked "interface conversion: interface {} is nil, not string"⟩ ∧
    Read sampleRuntime sampleConfig sampleState (.response (ok200 "<html>"))
      = ⟨[readRequest sampleConfig sampleState],
          .panicked "interface conversion: interface {} is nil, not string"⟩ :=
  ⟨rfl, rfl⟩

/-- Read panics on every 200 response whose decoded body has no string displayName. -/
theorem Read_panics_of_no_displayName (rt : Runtime) (cfg : ProviderConfig)
    (data : RagCorpusResourceModel) (r : HTTPResponse) (h200 : r.StatusCode = 200)
    (hmissing : asString ((Decode rt r.Body []).1.get "displayName") = none) :
    (Read rt cfg data (.response r)).result
      = .panicked (stringAssertionPanic ((Decode rt r.Body []).1.get "displayName")) := by
  simp [Read, h200, hmissing]

/-- C7: a Read answered with status 404, whatever the body, removes the resource from
the state and adds no diagnostic; a Read answered with a status other than 200 and 404
adds one error diagnostic made of the status and the raw body and leaves the state
untouched. -/
theorem read_status_classification (rt : Runtime) (cfg : ProviderConfig)
    (data : RagCorpusResourceModel) (r : HTTPResponse) :
    (r.StatusCode = 404 →
      Read rt cfg data (.response r) = ⟨[readRequest cfg data], .returned ⟨[], .removed⟩⟩) ∧
    (r.StatusCode ≠ 200 → r.StatusCode ≠ 404 →
      Read rt cfg data (.response r)
        = ⟨[readRequest cfg data],
            .returned ⟨[⟨.error, "API Error", "Status: " ++ r.Status ++ ", Body: " ++ r.Body⟩],
              .untouched⟩⟩) := by
  constructor
  · intro h
    simp [Read, h]
  · intro h200 h404
    simp [Read, h200, h404, errorDiag, apiErrorDetail]

theorem read_status_classification_witness :
    Read sampleRuntime sampleConfig sampleState (.response ⟨"404 Not Found", 404, corpusBody⟩)
      = ⟨[readRequest sampleConfig sampleState], .returned ⟨[], .removed⟩⟩ ∧
    Read sampleRuntime sampleConfig sampleState (.response ⟨"503 Service Unavailable", 503, "busy"⟩)
      = ⟨[readRequest sampleConfig sampleState],
          .returned ⟨[⟨.error, "API Error", "Status: 503 Service Unavailable, Body: busy"⟩],
            .untouched⟩⟩ :=
  ⟨(read_status_classification sampleRuntime sampleConfig sampleState
      ⟨"404 Not Found", 404, corpusBody⟩).1 rfl,
   (read_status_classification sampleRuntime sampleConfig sampleState
      ⟨"503 Service Unavailable", 503, "busy"⟩).2 (by decide) (by decide)⟩

/-- C8: on a 200 response whose decoded body has the string B as displayName, Read adds
no diagnostic and sets a state whose DisplayName is B, whatever the stored one; its
Description is D when the body has the string D as description, and the stored one
otherwise; its Name, ID and EmbeddingModelConfig are the stored ones. -/
theorem read_reflects_observed (rt : Runtime) (cfg : ProviderConfig)
    (data : RagCorpusResourceModel) (r : HTTPResponse) (B : String)
    (h200 : r.StatusCode = 200)
    (hB : (Decode rt r.Body []).1.get "displayName" = some (.str B)) :
    ∃ st, Read rt cfg data (.response r) = ⟨[readRequest cfg data], .returned ⟨[], .set st⟩⟩ ∧
      st.DisplayName = .value B ∧
      (∀ D, (Decode rt r.Body []).1.get "description" = some (.str D) →
        st.Description = .value D) ∧
      (asString ((Decode rt r.Body []).1.get "description") = none →
        st.Description = data.Description) ∧
      st.Name = data.Name ∧ st.ID = data.ID ∧
      st.EmbeddingModelConfig = data.EmbeddingModelConfig := by
  have hBs : asString ((Decode rt r.Body []).1.get "displayName") = some B := by
    rw [hB]; rfl
  cases hdesc : asString ((Decode rt r.Body []).1.get "description") with
  | none =>
    refine ⟨{ data with DisplayName := .value B }, ?_, rfl, ?_, fun _ => rfl, rfl, rfl, rfl⟩
    · simp [Read, h200, hBs, hdesc, StringValue]
    · intro D hD
      rw [hD] at hdesc
      simp [asString] at hdesc
  | some desc =>
    refine ⟨{ data with DisplayName := .value B, Description := .value desc }, ?_, rfl, ?_,
      ?_, rfl, rfl, rfl⟩
    · simp [Read, h200, hBs, hdesc, StringValue]
    · intro D hD
      rw [hD] at hdesc
      simp only [asString, Option.some.injEq] at hdesc
      rw [hdesc]
    · intro h
      exact absurd h (by simp)

theorem read_reflects_observed_witness :
    ∃ st, Read sampleRuntime sampleConfig sampleState (.response (ok200 corpusBody))
        = ⟨[readRequest sampleConfig sampleState], .returned ⟨[], .set st⟩⟩ ∧
      sampleState.DisplayName = .value "A" ∧ st.DisplayName = .value "B" ∧
      st.Description = .value "D" :=
  have ⟨st, hrun, hname, hdesc, _⟩ := read_reflects_observed sampleRuntime sampleConfig
    sampleState (ok200 corpusBody) "B" rfl rfl
  ⟨st, hrun, rfl, hname, hdesc "D" rfl⟩

/-! ## Delete -/

/-- C6: a Delete answered with status 404 ends exactly as one answered with status 200,
with no diagnostic; and whenever the DELETE is answered, Delete returns an error
diagnostic if and only if the status is neither 200 nor 404. -/
theorem delete_error_iff_other_status (cfg : ProviderConfig) (data : RagCorpusResourceModel)
    (r : HTTPResponse) (s200 b200 s404 b404 : String) :
    Delete cfg data (.response ⟨s404, 404, b404⟩) = Delete cfg data (.response ⟨s200, 200, b200⟩) ∧
    Delete cfg data (.response ⟨s200, 200, b200⟩)
      = ⟨[deleteRequest cfg data], .returned ⟨[], .untouched⟩⟩ ∧
    ∃ resp, Delete cfg data (.response r) = ⟨[deleteRequest cfg data], .returned resp⟩ ∧
      (HasError resp.Diagnostics = true ↔ (r.StatusCode ≠ 200 ∧ r.StatusCode ≠ 404)) ∧
      (resp.Diagnostics ≠ [] ↔ (r.StatusCode ≠ 200 ∧ r.StatusCode ≠ 404)) := by
  refine ⟨by simp [Delete], by simp [Delete], ?_⟩
  by_cases h : r.StatusCode ≠ 200 ∧ r.StatusCode ≠ 404
  · refine ⟨⟨[errorDiag "API Error" (apiErrorDetail r)], .untouched⟩, ?_, ?_, ?_⟩
    · simp only [Delete]
      rw [if_pos h]
    · simp [HasError, errorDiag, h]
    · simp [h]
  · refine ⟨⟨[], .untouched⟩, ?_, ?_, ?_⟩
    · simp only [Delete]
      rw [if_neg h]
    · simp [HasError, h]
    · simp [h]

/-! ## Update -/

/-- C9: whatever the plan, with or without an EmbeddingModelConfig, the payload of the
PATCH request of Update has exactly the keys display_name and description, holding the
planned DisplayName and Description, and no key embedding_model_config; the query of
the request is exactly updateMask=display_name,description, the mask made of the keys
of the payload; and this is the one request Update sends. -/
theorem update_payload_scoped (cfg : ProviderConfig) (data : RagCorpusResourceModel)
    (r : HTTPResponse) :
    (Update cfg data (.response r)).sent = [updateRequest cfg data] ∧
    (updateRequest cfg data).Method = "PATCH" ∧
    (updateRequest cfg data).Body = some (updatePayload data) ∧
    updatePayload data
      = [("display_name", .str data.DisplayName.ValueString),
         ("description", .str data.Description.ValueString)] ∧
    (updatePayload data).map Prod.fst = ["display_name", "description"] ∧
    (updatePayload data).get "embedding_model_config" = none ∧
    (updateRequest cfg data).RawQuery = some "updateMask=display_name,description" ∧
    (updateRequest cfg data).RawQuery
      = some ("updateMask=" ++ ",".intercalate ((updatePayload data).map Prod.fst)) := by
  refine ⟨?_, rfl, rfl, rfl, rfl, ?_, rfl, ?_⟩
  · simp only [Update]
    split_ifs <;> rfl
  · simp [updatePayload, GoMap.get]
  · simp only [updateRequest, updatePayload, List.map]
    decide

/-! ## Create: payload -/

/-- The requests the poll loop has sent when it ends. -/
theorem pollLoop_sent (rt : Runtime) (cfg : ProviderConfig) (opName : String)
    (polls : Nat → Exchange) :
    ∀ (n i : Nat) (result : GoMap) (sent : List HTTPRequest),
      ∃ more, (match pollLoop rt cfg opName polls n i result sent with
        | .aborted s _ => s
        | .finished s _ => s) = sent ++ more := by
  intro n
  induction n with
  | zero => intro i result sent; exact ⟨[], by simp [pollLoop]⟩
  | succ n ih =>
    intro i result sent
    by_cases hd : isTrue (result.get "done") = true
    · exact ⟨[], by simp [pollLoop, hd]⟩
    · cases hp : polls i with
      | requestError e => exact ⟨[], by simp [pollLoop, hd, hp]⟩
      | transportError e => exact ⟨[pollRequest cfg opName], by simp [pollLoop, hd, hp]⟩
      | response r =>
        obtain ⟨more, hmore⟩ := ih (i + 1) (Unmarshal rt r.Body result).1
          (sent ++ [pollRequest cfg opName])
        refine ⟨pollRequest cfg opName :: more, ?_⟩
        simp only [pollLoop, hd, hp]
        simpa using hmore

/-- C10: the payload of Create's POST holds display_name and description of the desired
state; when EmbeddingModelConfig is set with model m it also holds
embedding_model_config with publisher_model equal to "publishers/google/models/"
followed by m, and when it is not set the payload has no key embedding_model_config.
The POST carrying this payload is the first request Create sends. -/
theorem create_payload_mapping (rt : Runtime) (cfg : ProviderConfig) (polls : Nat → Exchange)
    (r : HTTPResponse) (id name displayName description model : TString) :
    createPayload ⟨id, name, displayName, description, some ⟨model⟩⟩
      = [("display_name", .str displayName.ValueString),
         ("description", .str description.ValueString),
         ("embedding_model_config",
            .obj [("publisher_model", .str ("publishers/google/models/" ++ model.ValueString))])] ∧
    createPayload ⟨id, name, displayName, description, some ⟨.value "text-embedding-004"⟩⟩
      = [("display_name", .str displayName.ValueString),
         ("description", .str description.ValueString),
         ("embedding_model_config",
            .obj [("publisher_model", .str "publishers/google/models/text-embedding-004")])] ∧
    createPayload ⟨id, name, displayName, description, none⟩
      = [("display_name", .str displayName.ValueString),
         ("description", .str description.ValueString)] ∧
    (createPayload ⟨id, name, displayName, description, none⟩).get "embedding_model_config"
      = none ∧
    (∀ data, (createRequest cfg data).Method = "POST" ∧
      (createRequest cfg data).Body = some (createPayload data) ∧
      ∃ more, (Create rt cfg data (.response r) polls).sent = createRequest cfg data :: more) := by
  refine ⟨?_, ?_, rfl, ?_, ?_⟩
  · simp [createPayload, GoMap.set]
  · simp [createPayload, GoMap.set, TString.ValueString]
  · simp [createPayload, GoMap.get]
  · intro data
    refine ⟨rfl, rfl, ?_⟩
    simp only [Create]
    split_ifs with h200
    · exact ⟨[], rfl⟩
    · split
      · exact ⟨[], rfl⟩
      · split
        · exact ⟨[], rfl⟩
        · rename_i result _ _ opName _
          obtain ⟨more, hmore⟩ := pollLoop_sent rt cfg opName polls 10 0 result
            [createRequest cfg data]
          refine ⟨more, ?_⟩
          split
          · rename_i hx; rw [hx] at hmore; simpa using hmore
          · rename_i hx; rw [hx] at hmore; simpa using hmore

end VertexAIRAG
